import Mathlib

/-
Verification of the ovagen OVA-repackaging tool (src/ovagen.py) against its
natural-language specification.

Modelling conventions used throughout this development:
  - Python strings are modelled as List Char; bytes as List Nat (each < 256).
  - Python dicts are modelled as association lists with overwrite-on-insert
    semantics (dictInsert / dictGet below), preserving first-insertion order
    exactly as CPython dicts do.
  - An xml.etree.ElementTree element is modelled by the mutual inductive
    Element / ElemList: a tag, an attribute dict, optional text, optional
    tail, and a list of child elements.  ElementTree parses namespaced names
    to the form brace-URI-brace-local, which qualTag builds.
  - Raising an exception is modelled by Option / Except results.
  - input() responses are modelled by a list of strings consumed in order;
    exhausting the list models EOFError.
  - hashlib.sha1(...).hexdigest() is modelled by sha1Hex, a complete
    executable SHA-1 (FIPS 180) over byte lists, validated below on the
    standard test vectors for the empty message and "abc".
-/

/-! ## Python string primitives over List Char -/

/-- Whitespace characters stripped by str.strip() (ASCII fragment). -/
def isPySpace (c : Char) : Bool :=
  c = ' ' || c = '\t' || c = '\n' || c = '\r' || c = '\x0b' || c = '\x0c'

/-- Python str.strip(): drop leading and trailing whitespace. -/
def pyStrip (s : List Char) : List Char :=
  ((s.dropWhile isPySpace).reverse.dropWhile isPySpace).reverse

/-- Python str.lower() (ASCII fragment). -/
def pyLower (s : List Char) : List Char := s.map Char.toLower

/-- Whether sep occurs as a contiguous substring (Python "sep in s"). -/
def hasSub (sep : List Char) : List Char → Bool
  | [] => sep.isPrefixOf []
  | c :: rest => sep.isPrefixOf (c :: rest) || hasSub sep rest

/-- Worker for pySplit.  The Nat fuel is always at least the length of the
    scanned list, so the zero-fuel arm is never reached from pySplit. -/
def pySplitGo (c0 : Char) (sep : List Char) : Nat → List Char → List Char → List (List Char)
  | _, acc, [] => [acc.reverse]
  | 0, acc, s => [acc.reverse ++ s]
  | fuel + 1, acc, c :: rest =>
    if (c0 :: sep).isPrefixOf (c :: rest) then
      acc.reverse :: pySplitGo c0 sep fuel [] (rest.drop sep.length)
    else
      pySplitGo c0 sep fuel (c :: acc) rest

/-- Python str.split(sep) for a non-empty separator: split on every
    non-overlapping occurrence, left to right. -/
def pySplit (sep s : List Char) : List (List Char) :=
  match sep with
  | [] => [s]
  | c0 :: sepRest => pySplitGo c0 sepRest s.length [] s

/-- Worker for pyReplace, with the same fuel convention as pySplitGo. -/
def pyReplaceGo (c0 : Char) (sep new : List Char) : Nat → List Char → List Char
  | _, [] => []
  | 0, s => s
  | fuel + 1, c :: rest =>
    if (c0 :: sep).isPrefixOf (c :: rest) then
      new ++ pyReplaceGo c0 sep new fuel (rest.drop sep.length)
    else
      c :: pyReplaceGo c0 sep new fuel rest

/-- Python str.replace(old, new) for a non-empty old: replace every
    non-overlapping occurrence, left to right. -/
def pyReplace (old new s : List Char) : List Char :=
  match old with
  | [] => s
  | c0 :: oldRest => pyReplaceGo c0 oldRest new s.length s

/-! ## Python dict as an association list -/

/-- Python dict lookup d.get(k) / d[k]. -/
def dictGet {κ ω : Type} [DecidableEq κ] (d : List (κ × ω)) (k : κ) : Option ω :=
  match d with
  | [] => none
  | (k2, v) :: rest => if k2 = k then some v else dictGet rest k

/-- Python dict assignment d[k] = v: overwrite in place if the key is
    present, else append, preserving first-insertion order. -/
def dictInsert {κ ω : Type} [DecidableEq κ] (k : κ) (v : ω) :
    List (κ × ω) → List (κ × ω)
  | [] => [(k, v)]
  | (k2, v2) :: rest => if k2 = k then (k, v) :: rest else (k2, v2) :: dictInsert k v rest

/-! ## SHA-1 (the meaning of hashlib.sha1(...).hexdigest()) -/

def pow32 : Nat := 4294967296

/-- Rotate a 32-bit word left by n bits. -/
def rotl (n x : Nat) : Nat := ((x <<< n) ||| (x >>> (32 - n))) % pow32

/-- The SHA-1 round function. -/
def sha1F (i b c d : Nat) : Nat :=
  if i < 20 then (b &&& c) ||| ((b ^^^ 4294967295) &&& d)
  else if i < 40 then b ^^^ c ^^^ d
  else if i < 60 then (b &&& c) ||| (b &&& d) ||| (c &&& d)
  else b ^^^ c ^^^ d

/-- The SHA-1 round constants. -/
def sha1K (i : Nat) : Nat :=
  if i < 20 then 1518500249
  else if i < 40 then 1859775393
  else if i < 60 then 2400959708
  else 3395469782

/-- Big-endian packing of bytes into 32-bit words. -/
def bytesToWords : List Nat → List Nat
  | b0 :: b1 :: b2 :: b3 :: rest => (((b0 * 256 + b1) * 256 + b2) * 256 + b3) :: bytesToWords rest
  | _ => []

/-- Extend the 16 message-schedule words to 80. -/
def extendWords : Nat → List Nat → List Nat
  | 0, w => w
  | k + 1, w =>
    let n := w.length
    extendWords k
      (w ++ [rotl 1 ((w.getD (n - 3) 0) ^^^ (w.getD (n - 8) 0) ^^^ (w.getD (n - 14) 0) ^^^ (w.getD (n - 16) 0))])

/-- One SHA-1 round: state update from the indexed schedule word. -/
def sha1Step (st : Nat × Nat × Nat × Nat × Nat) (iw : Nat × Nat) : Nat × Nat × Nat × Nat × Nat :=
  match st, iw with
  | (a, b, c, d, e), (i, w) =>
    ((rotl 5 a + sha1F i b c d + e + sha1K i + w) % pow32, a, rotl 30 b, c, d)

/-- Process one 64-byte block. -/
def sha1Compress (h : Nat × Nat × Nat × Nat × Nat) (block : List Nat) : Nat × Nat × Nat × Nat × Nat :=
  let w := extendWords 64 (bytesToWords block)
  match h, w.enum.foldl sha1Step h with
  | (h0, h1, h2, h3, h4), (a, b, c, d, e) =>
    ((h0 + a) % pow32, (h1 + b) % pow32, (h2 + c) % pow32, (h3 + d) % pow32, (h4 + e) % pow32)

/-- Split a byte list into 64-byte chunks (fuel is at least the length). -/
def chunksGo : Nat → List Nat → List (List Nat)
  | _, [] => []
  | 0, l => [l]
  | fuel + 1, c :: rest => ((c :: rest).take 64) :: chunksGo fuel ((c :: rest).drop 64)

/-- SHA-1 message padding: 0x80, zeros to 56 mod 64, 8-byte big-endian bit length. -/
def sha1Pad (msg : List Nat) : List Nat :=
  let lb := 8 * msg.length
  msg ++ [128] ++ List.replicate ((119 - msg.length % 64) % 64) 0 ++
    [(lb >>> 56) % 256, (lb >>> 48) % 256, (lb >>> 40) % 256, (lb >>> 32) % 256,
     (lb >>> 24) % 256, (lb >>> 16) % 256, (lb >>> 8) % 256, lb % 256]

/-- Big-endian bytes of a 32-bit word. -/
def wordBytes (w : Nat) : List Nat :=
  [(w >>> 24) % 256, (w >>> 16) % 256, (w >>> 8) % 256, w % 256]

/-- The 20-byte SHA-1 digest of a byte list. -/
def sha1 (msg : List Nat) : List Nat :=
  let padded := sha1Pad msg
  match (chunksGo padded.length padded).foldl sha1Compress
      (1732584193, 4023233417, 2562383102, 271733878, 3285377520) with
  | (h0, h1, h2, h3, h4) =>
    wordBytes h0 ++ wordBytes h1 ++ wordBytes h2 ++ wordBytes h3 ++ wordBytes h4

def hexDigitsChars : List Char := ("0123456789abcdef").data

/-- Two lowercase hex digits of one byte, as hexdigest() renders it. -/
def byteHex (n : Nat) : List Char :=
  [hexDigitsChars.getD ((n / 16) % 16) '0', hexDigitsChars.getD (n % 16) '0']

/-- hashlib.sha1(msg).hexdigest() as a list of 40 lowercase hex characters. -/
def sha1Hex (msg : List Nat) : List Char := (sha1 msg).flatMap byteHex

/-! ## The ElementTree document model -/

mutual
/-- An xml.etree.ElementTree Element: tag, attribute dict (in document
    order), optional text, optional tail, and child elements. -/
inductive Element where
  | mk : List Char → List (List Char × List Char) → Option (List Char) → Option (List Char) → ElemList → Element
/-- Child lists, as a mutual inductive so that all tree recursions are
    structural. -/
inductive ElemList where
  | nil : ElemList
  | cons : Element → ElemList → ElemList
end

def Element.tag : Element → List Char
  | .mk t _ _ _ _ => t

def Element.attr : Element → List (List Char × List Char)
  | .mk _ a _ _ _ => a

def Element.text : Element → Option (List Char)
  | .mk _ _ x _ _ => x

def Element.tail : Element → Option (List Char)
  | .mk _ _ _ tl _ => tl

def Element.childs : Element → ElemList
  | .mk _ _ _ _ cs => cs

/-- ElementTree renders the namespaced name ns:local as brace,URI,brace,local. -/
def qualTag (ns loc : List Char) : List Char := '\x7b' :: (ns ++ '\x7d' :: loc)

def ovfNS : List Char := ("http://schemas.dmtf.org/ovf/envelope/1").data

def vssdNS : List Char :=
  ("http://schemas.dmtf.org/wbem/wscim/1/cim-schema/2/CIM_VirtualSystemSettingData").data

def labelTag : List Char := qualTag ovfNS (("Label").data)

def descriptionTag : List Char := qualTag ovfNS (("Description").data)

def propertyTag : List Char := qualTag ovfNS (("Property").data)

def systemTag : List Char := qualTag ovfNS (("System").data)

def elementNameTag : List Char := qualTag vssdNS (("ElementName").data)

def virtualSystemTypeTag : List Char := qualTag vssdNS (("VirtualSystemType").data)

/-- elem.find(tag) for a direct-children query: first child with the tag. -/
def findChildTag (tg : List Char) : ElemList → Option Element
  | .nil => none
  | .cons e es => if e.tag = tg then some e else findChildTag tg es

/-- Set the text of the first direct child carrying the given tag (the
    effect of label_elem.text = v after find). -/
def setFirstChildText (tg v : List Char) : ElemList → ElemList
  | .nil => .nil
  | .cons (.mk t a x tl cs) es =>
    if t = tg then .cons (.mk t a (some v) tl cs) es
    else .cons (.mk t a x tl cs) (setFirstChildText tg v es)

mutual
/-- All descendants-or-self with the given tag, in document order. -/
def collectTagE (tg : List Char) : Element → List Element
  | .mk t a x tl cs => (if t = tg then [Element.mk t a x tl cs] else []) ++ collectTagL tg cs
/-- All elements of the list with their descendants, document order:
    root.findall(".//tag") is collectTagL tg root.childs. -/
def collectTagL (tg : List Char) : ElemList → List Element
  | .nil => []
  | .cons e es => collectTagE tg e ++ collectTagL tg es
end

mutual
/-- First descendant-or-self with the tag, pre-order (document order). -/
def findDescE (tg : List Char) : Element → Option Element
  | .mk t a x tl cs => if t = tg then some (.mk t a x tl cs) else findDescL tg cs
/-- root.find(".//tag") is findDescL tg root.childs. -/
def findDescL (tg : List Char) : ElemList → Option Element
  | .nil => none
  | .cons e es =>
    match findDescE tg e with
    | some r => some r
    | none => findDescL tg es
end

mutual
/-- Replace the first descendant-or-self with the tag by its f-image,
    modelling an in-place mutation of the element find(".//tag") returned. -/
def updDescE (tg : List Char) (f : Element → Element) : Element → Option Element
  | .mk t a x tl cs =>
    if t = tg then some (f (.mk t a x tl cs))
    else
      match updDescL tg f cs with
      | some cs2 => some (.mk t a x tl cs2)
      | none => none
def updDescL (tg : List Char) (f : Element → Element) : ElemList → Option ElemList
  | .nil => none
  | .cons e es =>
    match updDescE tg f e with
    | some e2 => some (.cons e2 es)
    | none =>
      match updDescL tg f es with
      | some es2 => some (.cons e es2)
      | none => none
end

mutual
/-- Element.itertext(): every non-empty text fragment of the subtree in
    document order (text before children, each child followed by its tail). -/
def itertextE : Element → List (List Char)
  | .mk _ _ x _ cs =>
    (match x with
     | some t => if t = [] then [] else [t]
     | none => []) ++ itertextL cs
def itertextL : ElemList → List (List Char)
  | .nil => []
  | .cons e es =>
    itertextE e ++
      (match e.tail with
       | some t => if t = [] then [] else [t]
       | none => []) ++ itertextL es
end

/-! ## Translations of the functions of src/ovagen.py -/

/-- Line 36: text.split(char 125)[1].  Returns none where Python raises
    IndexError (no brace in the name). -/
def remove_namespace_prefix (t : List Char) : Option (List Char) :=
  (pySplit ['\x7d'] t).get? 1

/-- Lines 40-51: first ProductSection descendant for the namespace. -/
def find_product_section (ns : List Char) (xml_root : Element) : Option Element :=
  findDescL (qualTag ns (("ProductSection").data)) xml_root.childs

/-- The attribute-copying loop of property_to_json (lines 60-68): normalize
    each attribute name by stripping the namespace brace prefix and forcing
    an ovf: prefix.  none models the IndexError of remove_namespace_prefix. -/
def propAttrs : List (List Char × List Char) → List (List Char × List Char) → Option (List (List Char × List Char))
  | [], d => some d
  | (k, v) :: rest, d =>
    match remove_namespace_prefix k with
    | none => none
    | some k2 =>
      if (("ovf:").data).isPrefixOf k2 then propAttrs rest (dictInsert k2 v d)
      else propAttrs rest (dictInsert ((("ovf:").data) ++ k2) v d)

/-- Lines 70-76: attach the Label child text, list(itertext())[0].
    none models the IndexError on an empty itertext. -/
def propLabel (e : Element) (d : List (List Char × List Char)) : Option (List (List Char × List Char)) :=
  match findChildTag labelTag e.childs with
  | some l =>
    match itertextE l with
    | [] => none
    | t :: _ => some (dictInsert (("Label").data) t d)
  | none => some d

/-- Lines 72-78: attach the Description child text, list(itertext())[0]. -/
def propDescr (e : Element) (d : List (List Char × List Char)) : Option (List (List Char × List Char)) :=
  match findChildTag descriptionTag e.childs with
  | some de =>
    match itertextE de with
    | [] => none
    | t :: _ => some (dictInsert (("Description").data) t d)
  | none => some d

/-- Lines 54-80: property_to_json.  Builds the flat dict for one Property
    element; none models a raised IndexError. -/
def property_to_json (e : Element) : Option (List (List Char × List Char)) :=
  match propAttrs e.attr [] with
  | none => none
  | some d0 =>
    match propLabel e d0 with
    | none => none
    | some d1 => propDescr e d1

/-- Lines 83-97: properties_to_json over every Property descendant. -/
def properties_to_json (ns : List Char) (product_tree : Element) : Option (List (List (List Char × List Char))) :=
  (collectTagL (qualTag ns (("Property").data)) product_tree.childs).mapM property_to_json

def ovfKeyAttr : List Char := ("ovf:key").data

mutual
/-- The mutation performed by update_ovf_with_user_values (lines 111-116) on
    one subtree: for a Property element whose literal attribute "ovf:key" is
    a key of user_values and which has a Label child, set that child's text
    to the mapped value; recurse into children (the Python code reaches
    nested Property descendants through findall(".//")). -/
def mergeProps (uv : List (Option (List Char) × List Char)) : Element → Element
  | .mk t a x tl cs =>
    let cs1 := mergePropsL uv cs
    if t = propertyTag then
      match dictGet uv (dictGet a ovfKeyAttr), findChildTag labelTag cs with
      | some v, some _ => .mk t a x tl (setFirstChildText labelTag v cs1)
      | some _, none => .mk t a x tl cs1
      | none, _ => .mk t a x tl cs1
    else .mk t a x tl cs1
def mergePropsL (uv : List (Option (List Char) × List Char)) : ElemList → ElemList
  | .nil => .nil
  | .cons e es => .cons (mergeProps uv e) (mergePropsL uv es)
end

/-- Lines 100-127: update_ovf_with_user_values.  The tree after the merge
    loop over root.findall(".//Property"); serialization to output_file with
    the four registered namespace prefixes is an external effect and does
    not change the tree. -/
def update_ovf_with_user_values (xml_root : Element) (user_values : List (Option (List Char) × List Char)) : Element :=
  match xml_root with
  | .mk t a x tl cs => .mk t a x tl (mergePropsL user_values cs)

/-- One boolean-prompt attempt (lines 172-175): input().strip().lower()
    accepted when it is true, false or empty; empty defaults to true. -/
def promptBoolAccept (s : List Char) : Option (List Char) :=
  let v := pyLower (pyStrip s)
  if v = ("true").data ∨ v = ("false").data ∨ v = [] then
    some (if v = [] then ("true").data else v)
  else none

/-- The while-True re-prompt loop of the boolean branch (lines 171-180),
    driven by the finite response stream; none models EOFError. -/
def promptBoolLoop : List (List Char) → Option (List Char × List (List Char))
  | [] => none
  | r :: rest =>
    match promptBoolAccept r with
    | some v => some (v, rest)
    | none => promptBoolLoop rest

/-- The body of the properties loop (lines 157-180) for one record: returns
    the updated record, the entry to insert into user_values (none when the
    record is skipped), and the remaining response stream; the outer none
    models EOFError on an exhausted stream. -/
def processProp (p : List (List Char × List Char)) (inputs : List (List Char)) :
    Option (List (List Char × List Char) × Option (Option (List Char) × List Char) × List (List Char)) :=
  let label := dictGet p (("Label").data)
  if dictGet p (("ovf:userConfigurable").data) = some (("true").data) then
    if dictGet p (("ovf:type").data) = some (("string").data) then
      match inputs with
      | [] => none
      | v :: rest => some (dictInsert (("ovf:value").data) v p, some (label, v), rest)
    else if dictGet p (("ovf:type").data) = some (("boolean").data) then
      match promptBoolLoop inputs with
      | none => none
      | some (v, rest) => some (dictInsert (("ovf:value").data) v p, some (label, v), rest)
    else some (p, none, inputs)
  else some (p, none, inputs)

/-- Insert a produced entry into the user_values dict. -/
def insertEntry (ent : Option (Option (List Char) × List Char)) (d : List (Option (List Char) × List Char)) :
    List (Option (List Char) × List Char) :=
  match ent with
  | none => d
  | some (k, v) => dictInsert k v d

/-- The loop of prompt_user_for_values, accumulating user_values. -/
def promptGo (props : List (List (List Char × List Char))) (acc : List (Option (List Char) × List Char))
    (inputs : List (List Char)) :
    Option (List (List (List Char × List Char)) × List (Option (List Char) × List Char) × List (List Char)) :=
  match props with
  | [] => some ([], acc, inputs)
  | p :: ps =>
    match processProp p inputs with
    | none => none
    | some (p2, ent, rest) =>
      match promptGo ps (insertEntry ent acc) rest with
      | none => none
      | some (ps2, uv, rem) => some (p2 :: ps2, uv, rem)

/-- Lines 130-182: prompt_user_for_values.  Returns the updated records, the
    user_values dict keyed by each record's Label (possibly absent), and the
    unconsumed responses; none models EOFError. -/
def prompt_user_for_values (properties_json : List (List (List Char × List Char))) (inputs : List (List Char)) :
    Option (List (List (List Char × List Char)) × List (Option (List Char) × List Char) × List (List Char)) :=
  promptGo properties_json [] inputs

/-! ## Manifest reconciliation (update_sha1_values, lines 289-322) -/

def sha1OpenChars : List Char := ['S', 'H', 'A', '1', '(']

def eqSpaceChars : List Char := ['=', ' ']

/-- The digest dictionary of the os.walk loop (lines 300-307): the walk is
    passed in as the list of (path relative to base_dir, raw bytes) pairs in
    traversal order. -/
def sha1_values (files : List (List Char × List Nat)) : List (List Char × List Char) :=
  files.foldl (fun d f => dictInsert f.1 (sha1Hex f.2) d) []

/-- The rewritten digest line, SHA1(name)= digest and a newline (line 318). -/
def mkSha1Line (n d : List Char) : List Char :=
  sha1OpenChars ++ n ++ (')' :: eqSpaceChars) ++ d ++ ['\n']

/-- The file name parsed out of a manifest line (lines 315-316):
    strip, split on the equals-space separator, take part 0, delete every
    SHA1-open occurrence and every closing parenthesis. -/
def extractName (line : List Char) : List Char :=
  pyReplace [')'] [] (pyReplace sha1OpenChars [] ((pySplit eqSpaceChars (pyStrip line)).headD []))

/-- The per-line update of the manifest loop (lines 313-318). -/
def processLine (sv : List (List Char × List Char)) (line : List Char) : List Char :=
  if sha1OpenChars.isPrefixOf (pyStrip line) then
    match dictGet sv (extractName line) with
    | some d => mkSha1Line (extractName line) d
    | none => line
  else line

/-- Lines 289-322: update_sha1_values.  The manifest is passed as its
    readlines() list (each line keeps its newline); the result is the line
    list written back. -/
def update_sha1_values (files : List (List Char × List Nat)) (mf_lines : List (List Char)) : List (List Char) :=
  mf_lines.map (processLine (sha1_values files))

/-! ## System-section rewrite (lines 325-354) -/

/-- Lines 325-329: first System descendant in the envelope namespace. -/
def system_section (xml_root : Element) : Option Element :=
  findDescL systemTag xml_root.childs

/-- The text written by update_system_section: space-joined vmx- tokens. -/
def vmxJoin (vmx_types : List Int) : List Char :=
  List.intercalate [' '] (vmx_types.map (fun v => (("vmx-").data) ++ (toString v).data))

/-- The in-place mutation on the found System element: set the text of its
    first VirtualSystemType child. -/
def setVst (v : List Char) (e : Element) : Element :=
  match e with
  | .mk t a x tl cs => .mk t a x tl (setFirstChildText virtualSystemTypeTag v cs)

/-- Lines 332-354: update_system_section.  Returns the document tree after
    the call (the Python function mutates in place; its None return when no
    System element exists does not affect the tree). -/
def update_system_section (xml_root : Element) (vmx_types : List Int) : Element :=
  match findDescL systemTag xml_root.childs with
  | none => xml_root
  | some sys =>
    match findChildTag elementNameTag sys.childs, findChildTag virtualSystemTypeTag sys.childs with
    | some _, some _ =>
      match updDescL systemTag (setVst (vmxJoin vmx_types)) xml_root.childs with
      | some cs2 =>
        match xml_root with
        | .mk t a x tl _ => .mk t a x tl cs2
      | none => xml_root
    | some _, none => xml_root
    | none, _ => xml_root

/-- Reading back the compatibility text: the VirtualSystemType child text of
    the first System descendant. -/
def vstText (xml_root : Element) : Option (Option (List Char)) :=
  match findDescL systemTag xml_root.childs with
  | none => none
  | some sys => (findChildTag virtualSystemTypeTag sys.childs).map Element.text

/-! ## Errors and the main pipeline (lines 185-209, 357-387) -/

/-- The Python exception kinds main can surface, by constructor. -/
inductive PyErr where
  | fileNotFound : List Char → PyErr
  | runtimeError : List Char → PyErr
  | typeError : List Char → PyErr
  | parseError : List Char → PyErr
  | attributeError : List Char → PyErr
  | indexError : PyErr
  | eofError : PyErr
deriving DecidableEq

/-- Lines 185-209: extract_ova.  The directory listing is passed in order;
    the tarfile outcome is external and passed as an Except. -/
def extract_ova (srcListing : List (List Char)) (tarResult : Except (List Char) Unit) : Except PyErr Unit :=
  match srcListing.find? (fun f => ((".ova").data).isSuffixOf f) with
  | none => .error (.fileNotFound (("No OVA file found in the source directory.").data))
  | some _ =>
    match tarResult with
    | .ok _ => .ok ()
    | .error e => .error (.runtimeError ((("Failed to extract OVA archive: ").data) ++ e))

/-- Lines 232-248: find_file_in_subdirectories over the os.walk result
    (root, files) in traversal order; the first file ending in dot-extension. -/
def find_file_in_subdirectories (walk : List (List Char × List (List Char))) (file_extension : List Char) :
    Option (List Char) :=
  match walk with
  | [] => none
  | (root, files) :: rest =>
    match files.find? (fun f => ('.' :: file_extension).isSuffixOf f) with
    | some f => some (root ++ '/' :: f)
    | none => find_file_in_subdirectories rest file_extension

/-- The message of open(None) / ET.parse(None): passing the None of a failed
    file search where a path is expected. -/
def noneTypeMsg : List Char :=
  ("expected str, bytes or os.PathLike object, not NoneType").data

/-- ET.parse on an optional path: None raises TypeError before any parsing;
    the parse outcome for a real file is external and passed as an Except. -/
def etParse (path : Option (List Char)) (parsed : Except (List Char) Element) : Except PyErr Element :=
  match path with
  | none => .error (.typeError noneTypeMsg)
  | some _ =>
    match parsed with
    | .ok e => .ok e
    | .error m => .error (.parseError m)

/-- External state of one run of main: the source-directory listing, the
    tarfile outcome, the os.walk of the destination directory (used by both
    descriptor and manifest searches), the parse outcome of the descriptor,
    the vmx-types option, the prompt responses, and the walked files and
    manifest lines consumed by update_sha1_values. -/
structure MainEnv where
  srcListing : List (List Char)
  tarResult : Except (List Char) Unit
  dstWalk : List (List Char × List (List Char))
  parsed : Except (List Char) Element
  vmxTypes : Option (List Int)
  promptInputs : List (List Char)
  dstFiles : List (List Char × List Nat)
  mfLines : List (List Char)

/-- The tree after the optional system-section update of main (line 374):
    Python tests the truthiness of cmd.vmx_types, so None and the empty
    list both skip the update. -/
def mainRoot1 (env : MainEnv) (xml_root : Element) : Element :=
  match env.vmxTypes with
  | some (t :: ts) => update_system_section xml_root (t :: ts)
  | some [] => xml_root
  | none => xml_root

namespace ovagen

/-- Lines 357-387: main.  Directory creation, file copying and the actual
    writes are external effects that do not influence the error kind; the
    remaining control flow (including generate_new_ovf, lines 265-286) is
    modelled faithfully: a missing descriptor or manifest path flows as None
    into ET.parse / open and raises TypeError, a missing ProductSection
    flows as None into findall and raises AttributeError, a property_to_json
    failure raises IndexError, an exhausted prompt stream raises EOFError. -/
def main (env : MainEnv) : Except PyErr Unit :=
  match extract_ova env.srcListing env.tarResult with
  | .error e => .error e
  | .ok _ =>
    match etParse (find_file_in_subdirectories env.dstWalk (("ovf").data)) env.parsed with
    | .error e => .error e
    | .ok xmlRoot =>
      let root1 := mainRoot1 env xmlRoot
      match find_product_section ovfNS root1 with
      | none => .error (.attributeError ((("NoneType object has no attribute findall")).data))
      | some productSection =>
        match properties_to_json ovfNS productSection with
        | none => .error .indexError
        | some propsJson =>
          match prompt_user_for_values propsJson env.promptInputs with
          | none => .error .eofError
          | some (_, userValues, _) =>
            let _ := update_ovf_with_user_values root1 userValues
            match find_file_in_subdirectories env.dstWalk (("mf").data) with
            | none => .error (.typeError noneTypeMsg)
            | some _ =>
              let _ := update_sha1_values env.dstFiles env.mfLines
              .ok ()

end ovagen

/-- A relative file path containing a closing parenthesis. -/
def cexPath2 : List Char := ("a)b").data

/-- The bytes of the file at cexPath2. -/
def cexBytes2 : List Nat := [104, 105]

/-- A walked directory containing exactly the file a)b. -/
def cexFiles2 : List (List Char × List Nat) := [(cexPath2, cexBytes2)]

/-- A well-formed manifest digest line for the path a)b with a stale digest. -/
def cexLine2 : List Char :=
  mkSha1Line cexPath2 (("0000000000000000000000000000000000000000").data)

/-- A clean walked directory for the C2 witness. -/
def witFiles2 : List (List Char × List Nat) := [(("disk1.vmdk").data, [104, 105])]

/-- Whether a run outcome is the file-not-found error kind. -/
def isNotFoundErr : Except PyErr Unit → Bool
  | .error (.fileNotFound _) => true
  | _ => false

/-- A source directory with no archive file. -/
def envA5 : MainEnv :=
  ⟨[("readme.txt").data], .ok (), [], .error [], none, [], [], []⟩

/-- An archive present but a failing tar extraction. -/
def envB5 : MainEnv :=
  ⟨[("box.ova").data], .error (("boom").data), [], .error [], none, [], [], []⟩

/-- A successful extraction whose destination tree contains no descriptor
    (.ovf) file. -/
def cexEnvC5 : MainEnv :=
  ⟨[("box.ova").data], .ok (), [(("dst").data, [("disk1.vmdk").data])], .error [], none, [], [], []⟩

/-- A descriptor document with an empty ProductSection. -/
def docC5 : Element :=
  Element.mk (qualTag ovfNS (("Envelope").data)) [] none none
    (.cons (Element.mk (qualTag ovfNS (("ProductSection").data)) [] none none .nil) .nil)

/-- A run that goes through prompting but whose destination tree contains no
    manifest (.mf) file. -/
def envD5 : MainEnv :=
  ⟨[("box.ova").data], .ok (), [(("dst").data, [("appliance.ovf").data])], .ok docC5, none, [], [], []⟩

/-- Every Property element of the document (the findall(".//Property")
    snapshot update_ovf_with_user_values iterates over), document order. -/
def collectProps (xml_root : Element) : List Element :=
  collectTagL propertyTag xml_root.childs

/-- The text of the first Label child of an element, as the merge loop reads
    and writes it: none when there is no Label child. -/
def firstLabelText (e : Element) : Option (Option (List Char)) :=
  (findChildTag labelTag e.childs).map Element.text

/-- A UserValueMap binding the label-keyed entry org to Acme, as the
    value-collection step would produce it. -/
def mergeUv : List (Option (List Char) × List Char) :=
  [(some (("org").data), ("Acme").data)]

/-- A Label child with text Organization. -/
def labelOrg : Element :=
  Element.mk labelTag [] (some (("Organization").data)) none .nil

/-- A Property element whose ovf:key attribute is org and which has a Label
    child. -/
def propOrg : Element :=
  Element.mk propertyTag [(("ovf:key").data, ("org").data)] none none (.cons labelOrg .nil)

/-- A document holding propOrg. -/
def docProps : Element :=
  Element.mk (qualTag ovfNS (("Envelope").data)) [] none none (.cons propOrg .nil)

/-- A Property record whose userConfigurable attribute is false, used to
    instantiate the skip theorem. -/
def skipProp : List (List Char × List Char) :=
  [(("ovf:key").data, ("org").data), (("ovf:userConfigurable").data, ("false").data),
   (("ovf:type").data, ("string").data)]

/-- A System element that has an ElementName child but no VirtualSystemType
    child. -/
def sysNoVst : Element :=
  Element.mk systemTag [] none none
    (.cons (Element.mk elementNameTag [] (some (("Virtual Hardware Family").data)) none .nil) .nil)

/-- A document whose System section lacks a VirtualSystemType element. -/
def docNoVst : Element :=
  Element.mk (qualTag ovfNS (("Envelope").data)) [] none none (.cons sysNoVst .nil)

/-- A System element carrying both required children, for the C3 witness. -/
def sysFull : Element :=
  Element.mk systemTag [] none none
    (.cons (Element.mk elementNameTag [] (some (("Virtual Hardware Family").data)) none .nil)
      (.cons (Element.mk virtualSystemTypeTag [] (some (("vmx-07").data)) none .nil) .nil))

/-- A document holding sysFull, for the C3 witness. -/
def docFull : Element :=
  Element.mk (qualTag ovfNS (("Envelope").data)) [] none none (.cons sysFull .nil)

/-- A Property element whose single attribute name carries no namespace
    brace, for the C9 witness. -/
def badAttrProp : Element :=
  Element.mk propertyTag [(("key").data, ("org").data)] none none .nil

/-- A Label child with no text at all, for the C10 witness. -/
def emptyLabel : Element := Element.mk labelTag [] none none .nil

/-- A Property element whose Label child has empty text content. -/
def emptyLabelProp : Element :=
  Element.mk propertyTag [(qualTag ovfNS (("key").data), ("org").data)] none none (.cons emptyLabel .nil)

/-! ## Basic lemmas -/

theorem dictGet_insert_self {α β : Type} [DecidableEq α] (k : α) (v : β) :
    ∀ d : List (α × β), dictGet (dictInsert k v d) k = some v
  | [] => by simp [dictInsert, dictGet]
  | (k2, v2) :: rest => by
    by_cases h : k2 = k
    · simp [dictInsert, dictGet, h]
    · simp [dictInsert, dictGet, h, dictGet_insert_self k v rest]

theorem dictGet_insert_ne {α β : Type} [DecidableEq α] (k k2 : α) (v : β) (hne : k2 ≠ k) :
    ∀ d : List (α × β), dictGet (dictInsert k v d) k2 = dictGet d k2
  | [] => by simp [dictInsert, dictGet, Ne.symm hne]
  | (k3, v3) :: rest => by
    by_cases h : k3 = k
    · subst h
      simp [dictInsert, dictGet, Ne.symm hne]
    · simp [dictInsert, dictGet, h, dictGet_insert_ne k k2 v hne rest]

mutual
theorem mergeProps_nil : ∀ e : Element, mergeProps [] e = e
  | .mk t a x tl cs => by
    have hcs := mergePropsL_nil cs
    simp only [mergeProps, dictGet]
    split <;> simp [hcs]
theorem mergePropsL_nil : ∀ l : ElemList, mergePropsL [] l = l
  | .nil => by simp [mergePropsL]
  | .cons e es => by
    simp [mergePropsL, mergeProps_nil e, mergePropsL_nil es]
end

/-! ## Claim theorems -/

/-- C8.  Extraction round-trip: property extraction (properties_to_json /
    property_to_json) is modelled as a pure function of the tree, and
    merging with an empty UserValueMap leaves the document tree identical,
    so every Property element keeps its original attribute set and
    Label/Description child text; re-extraction agrees. -/
theorem claim_C8 (xml_root : Element) (ns : List Char) :
    update_ovf_with_user_values xml_root [] = xml_root
    ∧ properties_to_json ns (update_ovf_with_user_values xml_root []) = properties_to_json ns xml_root := by
  have h : update_ovf_with_user_values xml_root [] = xml_root := by
    cases xml_root with
    | mk t a x tl cs => simp [update_ovf_with_user_values, mergePropsL_nil]
  exact ⟨h, by rw [h]⟩

/-- C4.  Boolean prompt normalization: True, FALSE, a padded true, and the
    empty response are accepted as true, false, true, true respectively, and
    any response whose stripped lowercase form is neither true nor false nor
    empty is rejected and the loop re-prompts on the rest of the stream. -/
theorem claim_C4 :
    promptBoolAccept (("True").data) = some (("true").data)
    ∧ promptBoolAccept (("FALSE").data) = some (("false").data)
    ∧ promptBoolAccept ((" true ").data) = some (("true").data)
    ∧ promptBoolAccept [] = some (("true").data)
    ∧ ∀ (s : List Char) (rest : List (List Char)),
        pyLower (pyStrip s) ≠ ("true").data →
        pyLower (pyStrip s) ≠ ("false").data →
        pyLower (pyStrip s) ≠ [] →
        promptBoolAccept s = none ∧ promptBoolLoop (s :: rest) = promptBoolLoop rest := by
  refine ⟨by decide, by decide, by decide, by decide, ?_⟩
  intro s rest h1 h2 h3
  have hacc : promptBoolAccept s = none := by
    simp only [promptBoolAccept]
    rw [if_neg]
    simp [h1, h2, h3]
  exact ⟨hacc, by simp [promptBoolLoop, hacc]⟩

/-- C4 witness: the response maybe is rejected and the loop moves on. -/
theorem claim_C4_witness :
    promptBoolAccept (("maybe").data) = none
    ∧ promptBoolLoop ((("maybe").data) :: []) = promptBoolLoop [] :=
  claim_C4.2.2.2.2 (("maybe").data) [] (by decide) (by decide) (by decide)

/-- C7.  Non-configurable and unsupported-type records: a record whose
    ovf:userConfigurable is not the string true, or whose ovf:type is
    neither string nor boolean, consumes no input (no prompt), is returned
    unchanged, and contributes no entry to the returned UserValueMap. -/
theorem claim_C7 (p : List (List Char × List Char)) (ps : List (List (List Char × List Char)))
    (inputs : List (List Char))
    (hskip : dictGet p (("ovf:userConfigurable").data) ≠ some (("true").data)
      ∨ (dictGet p (("ovf:type").data) ≠ some (("string").data)
         ∧ dictGet p (("ovf:type").data) ≠ some (("boolean").data))) :
    processProp p inputs = some (p, none, inputs)
    ∧ prompt_user_for_values (p :: ps) inputs =
        Option.map (fun r => (p :: r.1, r.2.1, r.2.2)) (prompt_user_for_values ps inputs) := by
  have hp : processProp p inputs = some (p, none, inputs) := by
    rcases hskip with h | ⟨h1, h2⟩
    · simp [processProp, h]
    · by_cases huc : dictGet p (("ovf:userConfigurable").data) = some (("true").data)
      · simp [processProp, huc, h1, h2]
      · simp [processProp, huc]
  refine ⟨hp, ?_⟩
  simp only [prompt_user_for_values, promptGo, hp, insertEntry]
  cases h : promptGo ps [] inputs with
  | none => simp
  | some r => simp

/-- C7 witness: a non-configurable string property is skipped outright. -/
theorem claim_C7_witness :
    processProp skipProp [("hello").data] = some (skipProp, none, [("hello").data])
    ∧ prompt_user_for_values [skipProp] [("hello").data] =
        Option.map (fun r => (skipProp :: r.1, r.2.1, r.2.2)) (prompt_user_for_values [] [("hello").data]) :=
  claim_C7 skipProp [] [("hello").data] (Or.inl (by decide))

/-- C6.  Compatibility rewrite no-op: when the document has no System
    descendant, or its (first) System descendant lacks an ElementName child
    or lacks a VirtualSystemType child, update_system_section returns the
    tree unchanged (and, being a total function, raises nothing). -/
theorem claim_C6 (xml_root : Element) (vmx_types : List Int) :
    (findDescL systemTag xml_root.childs = none →
      update_system_section xml_root vmx_types = xml_root)
    ∧ ∀ sys, findDescL systemTag xml_root.childs = some sys →
        (findChildTag elementNameTag sys.childs = none ∨
         findChildTag virtualSystemTypeTag sys.childs = none) →
        update_system_section xml_root vmx_types = xml_root := by
  constructor
  · intro h
    simp [update_system_section, h]
  · intro sys hfind hmiss
    rcases hmiss with h | h
    · simp [update_system_section, hfind, h]
    · cases hen : findChildTag elementNameTag sys.childs with
      | none => simp [update_system_section, hfind, hen, h]
      | some en => simp [update_system_section, hfind, hen, h]

/-- C6 witness: a System section with ElementName but no VirtualSystemType
    leaves the document untouched for the list 10, 11, 12. -/
theorem claim_C6_witness : update_system_section docNoVst [10, 11, 12] = docNoVst :=
  (claim_C6 docNoVst [10, 11, 12]).2 sysNoVst rfl (Or.inr rfl)

mutual
theorem findDescE_tag (tg : List Char) : ∀ (e : Element) (r : Element), findDescE tg e = some r → r.tag = tg
  | .mk t a x tl cs, r => by
    by_cases ht : t = tg
    · simp only [findDescE, if_pos ht]
      intro h
      injection h with h2
      rw [← h2]
      simp [Element.tag, ht]
    · simp only [findDescE, if_neg ht]
      exact findDescL_tag tg cs r
theorem findDescL_tag (tg : List Char) : ∀ (l : ElemList) (r : Element), findDescL tg l = some r → r.tag = tg
  | .nil, r => by simp [findDescL]
  | .cons e es, r => by
    cases h : findDescE tg e with
    | some r0 =>
      intro hh
      simp only [findDescL, h] at hh
      injection hh with hh2
      rw [← hh2]
      exact findDescE_tag tg e r0 h
    | none =>
      simp only [findDescL, h]
      exact findDescL_tag tg es r
end

mutual
theorem updDescE_of_find (tg : List Char) (f : Element → Element) :
    ∀ e : Element,
      (findDescE tg e = none → updDescE tg f e = none)
      ∧ ∀ r, findDescE tg e = some r → Element.tag (f r) = tg →
          ∃ e2, updDescE tg f e = some e2 ∧ findDescE tg e2 = some (f r)
  | .mk t a x tl cs => by
    by_cases ht : t = tg
    · constructor
      · intro h
        simp [findDescE, if_pos ht] at h
      · intro r hr htag
        simp only [findDescE, if_pos ht, Option.some.injEq] at hr
        refine ⟨f r, ?_, ?_⟩
        · simp [updDescE, if_pos ht, hr]
        · cases hfr : f r with
          | mk t2 a2 x2 tl2 cs2 =>
            have : t2 = tg := by
              have := htag
              rw [hfr] at this
              simpa [Element.tag] using this
            simp [findDescE, this]
    · have ih := updDescL_of_find tg f cs
      constructor
      · intro h
        simp only [findDescE, if_neg ht] at h
        simp [updDescE, if_neg ht, ih.1 h]
      · intro r hr htag
        simp only [findDescE, if_neg ht] at hr
        obtain ⟨l2, hl2, hfind2⟩ := ih.2 r hr htag
        refine ⟨.mk t a x tl l2, ?_, ?_⟩
        · simp [updDescE, if_neg ht, hl2]
        · simp [findDescE, if_neg ht, hfind2]
theorem updDescL_of_find (tg : List Char) (f : Element → Element) :
    ∀ l : ElemList,
      (findDescL tg l = none → updDescL tg f l = none)
      ∧ ∀ r, findDescL tg l = some r → Element.tag (f r) = tg →
          ∃ l2, updDescL tg f l = some l2 ∧ findDescL tg l2 = some (f r)
  | .nil => by
    constructor
    · intro h
      simp [updDescL]
    · intro r hr
      simp [findDescL] at hr
  | .cons e es => by
    have ihe := updDescE_of_find tg f e
    have ihes := updDescL_of_find tg f es
    cases h1 : findDescE tg e with
    | some r0 =>
      constructor
      · intro h
        simp [findDescL, h1] at h
      · intro r hr htag
        simp only [findDescL, h1, Option.some.injEq] at hr
        subst hr
        obtain ⟨e2, he2, hfind2⟩ := ihe.2 r0 h1 htag
        refine ⟨.cons e2 es, ?_, ?_⟩
        · simp [updDescL, he2]
        · simp [findDescL, hfind2]
    | none =>
      have hupde : updDescE tg f e = none := ihe.1 h1
      constructor
      · intro h
        simp only [findDescL, h1] at h
        simp [updDescL, hupde, ihes.1 h]
      · intro r hr htag
        simp only [findDescL, h1] at hr
        obtain ⟨l2, hl2, hfind2⟩ := ihes.2 r hr htag
        refine ⟨.cons e l2, ?_, ?_⟩
        · simp [updDescL, hupde, hl2]
        · simp [findDescL, h1, hfind2]
end

theorem setVst_tag (v : List Char) (e : Element) : (setVst v e).tag = e.tag := by
  cases e with
  | mk t a x tl cs => simp [setVst, Element.tag]

theorem setVst_childs (v : List Char) (e : Element) :
    (setVst v e).childs = setFirstChildText virtualSystemTypeTag v e.childs := by
  cases e with
  | mk t a x tl cs => simp [setVst, Element.childs]

theorem findChildTag_set (tg v : List Char) :
    ∀ l : ElemList,
      findChildTag tg (setFirstChildText tg v l) =
        (findChildTag tg l).map (fun e => Element.mk e.tag e.attr (some v) e.tail e.childs)
  | .nil => by simp [setFirstChildText, findChildTag]
  | .cons e es => by
    cases e with
    | mk t a x tl cs =>
      by_cases ht : t = tg
      · simp [setFirstChildText, findChildTag, ht, Element.tag, Element.attr, Element.tail, Element.childs]
      · simp [setFirstChildText, findChildTag, ht, Element.tag, findChildTag_set tg v es]

/-- C3.  Compatibility rewrite: when the document has a System descendant
    carrying both an ElementName child and a VirtualSystemType child,
    update_system_section sets the VirtualSystemType text to the
    space-joined vmx- tokens of the integer list, in the list's order, as
    re-extraction of that text confirms. -/
theorem claim_C3 (xml_root : Element) (vmx_types : List Int) (sys : Element)
    (hfind : findDescL systemTag xml_root.childs = some sys)
    (hen : (findChildTag elementNameTag sys.childs).isSome = true)
    (hvst : (findChildTag virtualSystemTypeTag sys.childs).isSome = true) :
    vstText (update_system_section xml_root vmx_types) =
      some (some (List.intercalate [' ']
        (vmx_types.map (fun v => (("vmx-").data) ++ (toString v).data)))) := by
  obtain ⟨en, hen2⟩ := Option.isSome_iff_exists.mp hen
  obtain ⟨ve, hvst2⟩ := Option.isSome_iff_exists.mp hvst
  have hsystag : sys.tag = systemTag := findDescL_tag systemTag xml_root.childs sys hfind
  have hftag : Element.tag (setVst (vmxJoin vmx_types) sys) = systemTag := by
    rw [setVst_tag]
    exact hsystag
  obtain ⟨l2, hl2, hfind2⟩ :=
    (updDescL_of_find systemTag (setVst (vmxJoin vmx_types)) xml_root.childs).2 sys hfind hftag
  cases xml_root with
  | mk t a x tl cs =>
    cases sys with
    | mk st sa sx stl scs =>
      simp only [Element.childs] at hfind hl2 hen2 hvst2 hfind2
      simp only [setVst] at hfind2
      simp only [update_system_section, Element.childs, hfind, hen2, hvst2, hl2]
      simp only [vstText, Element.childs, hfind2]
      rw [findChildTag_set, hvst2]
      simp [Element.text, vmxJoin]

/-- C3 witness: rewriting docFull with the list 10, 11 yields the text
    vmx-10 vmx-11. -/
theorem claim_C3_witness :
    vstText (update_system_section docFull [10, 11]) = some (some (("vmx-10 vmx-11").data)) := by
  have h := claim_C3 docFull [10, 11] sysFull rfl rfl rfl
  simpa using h

theorem pySplitGo_no_char (c0 : Char) :
    ∀ (t : List Char) (fuel : Nat) (acc : List Char), t.length ≤ fuel →
      (∀ c ∈ t, c ≠ c0) → pySplitGo c0 [] fuel acc t = [acc.reverse ++ t]
  | [], fuel, acc => by
    intro hf hall
    cases fuel <;> simp [pySplitGo]
  | c :: rest, fuel, acc => by
    intro hf hall
    cases fuel with
    | zero => simp at hf
    | succ fuel =>
      have hc : c ≠ c0 := hall c (by simp)
      have hpre : ([c0].isPrefixOf (c :: rest)) = false := by
        simp [List.isPrefixOf]
        exact fun h => (hc h.symm).elim
      have ih := pySplitGo_no_char c0 rest fuel (c :: acc) (by simpa using Nat.le_of_succ_le_succ hf)
        (fun d hd => hall d (by simp [hd]))
      simp only [pySplitGo, hpre]
      rw [if_neg (by simp [hpre])]
      rw [ih]
      simp

/-- The brace-free case of remove_namespace_prefix: split yields a single
    piece and index 1 is out of range (Python IndexError). -/
theorem remove_namespace_prefix_none (t : List Char) (h : '\x7d' ∉ t) :
    remove_namespace_prefix t = none := by
  have : pySplit ['\x7d'] t = [t] := by
    simp only [pySplit]
    rw [pySplitGo_no_char '\x7d' t t.length [] (Nat.le_refl _) (fun c hc heq => h (heq ▸ hc))]
    simp
  simp [ remove_namespace_prefix, this]

theorem propAttrs_none :
    ∀ (l : List (List Char × List Char)) (d : List (List Char × List Char)),
      (∃ kv ∈ l, '\x7d' ∉ kv.1) → propAttrs l d = none
  | [], d => by
    rintro ⟨kv, hmem, hbad⟩
    simp at hmem
  | (k, v) :: rest, d => by
    rintro ⟨kv, hmem, hbad⟩
    rcases List.mem_cons.mp hmem with h | h
    · subst h
      simp only [propAttrs, remove_namespace_prefix_none k hbad]
    · cases hrm : remove_namespace_prefix k with
      | none => simp [propAttrs, hrm]
      | some k2 =>
        simp only [propAttrs, hrm]
        split
        · exact propAttrs_none rest _ ⟨kv, h, hbad⟩
        · exact propAttrs_none rest _ ⟨kv, h, hbad⟩

/-- C9.  Extraction totality on attribute names: an attribute name with no
    namespace brace makes remove_namespace_prefix fail (Python IndexError,
    modelled none) instead of receiving the ovf: prefix, and property_to_json
    on any Property element carrying such an attribute fails the same way;
    extraction succeeds only when every attribute name is qualified. -/
theorem claim_C9 (e : Element) (k v : List Char) (hmem : (k, v) ∈ e.attr) (hbad : '\x7d' ∉ k) :
    remove_namespace_prefix k = none ∧ property_to_json e = none := by
  refine ⟨ remove_namespace_prefix_none k hbad, ?_⟩
  simp [property_to_json, propAttrs_none e.attr [] ⟨(k, v), hmem, hbad⟩]

/-- C9 witness: the unqualified attribute name key defeats extraction. -/
theorem claim_C9_witness :
    remove_namespace_prefix (("key").data) = none ∧ property_to_json badAttrProp = none :=
  claim_C9 badAttrProp (("key").data) (("org").data) (by simp [badAttrProp, Element.attr]) (by decide)

/-- C10.  Extraction totality on empty children: a Label (or Description)
    child whose gathered text content (itertext) is empty makes
    property_to_json fail on list(itertext())[0] (Python IndexError,
    modelled none); attaching the child text succeeds only when some
    non-empty text is present. -/
theorem claim_C10 (e : Element)
    (hbad : (∃ l, findChildTag labelTag e.childs = some l ∧ itertextE l = [])
          ∨ (∃ l, findChildTag descriptionTag e.childs = some l ∧ itertextE l = [])) :
    property_to_json e = none := by
  cases h0 : propAttrs e.attr [] with
  | none => simp [property_to_json, h0]
  | some d0 =>
    rcases hbad with ⟨l, hl, hiter⟩ | ⟨l, hl, hiter⟩
    · simp [property_to_json, h0, propLabel, hl, hiter]
    · cases hpl : propLabel e d0 with
      | none => simp [property_to_json, h0, hpl]
      | some d1 => simp [property_to_json, h0, hpl, propDescr, hl, hiter]

/-- C10 witness: a Label child with empty text content defeats extraction
    even though every attribute is namespace-qualified. -/
theorem claim_C10_witness : property_to_json emptyLabelProp = none :=
  claim_C10 emptyLabelProp (Or.inl ⟨emptyLabel, rfl, rfl⟩)

theorem mergeProps_fields (uv : List (Option (List Char) × List Char)) (e : Element) :
    (mergeProps uv e).tag = e.tag ∧ (mergeProps uv e).attr = e.attr
    ∧ (mergeProps uv e).text = e.text ∧ (mergeProps uv e).tail = e.tail := by
  cases e with
  | mk t a x tl cs =>
    by_cases ht : t = propertyTag
    · simp only [mergeProps, if_pos ht]
      split <;> simp [Element.tag, Element.attr, Element.text, Element.tail]
    · simp [mergeProps, if_neg ht, Element.tag, Element.attr, Element.text, Element.tail]

theorem findChildTag_mergePropsL (uv : List (Option (List Char) × List Char)) (tg : List Char) :
    ∀ l : ElemList, findChildTag tg (mergePropsL uv l) = (findChildTag tg l).map (mergeProps uv)
  | .nil => by simp [mergePropsL, findChildTag]
  | .cons e es => by
    by_cases ht : e.tag = tg
    · simp [mergePropsL, findChildTag, (mergeProps_fields uv e).1, ht]
    · simp [mergePropsL, findChildTag, (mergeProps_fields uv e).1, ht,
        findChildTag_mergePropsL uv tg es]

theorem collectTagL_setFirst (v : List Char) :
    ∀ l : ElemList,
      collectTagL propertyTag (setFirstChildText labelTag v l) = collectTagL propertyTag l
  | .nil => by simp [setFirstChildText]
  | .cons e es => by
    cases e with
    | mk t a x tl cs =>
      by_cases ht : t = labelTag
      · have hlp : labelTag ≠ propertyTag := by decide
        simp [setFirstChildText, ht, collectTagL, collectTagE, hlp]
      · simp [setFirstChildText, ht, collectTagL, collectTagE, collectTagL_setFirst v es]

mutual
theorem collectTagE_merge (uv : List (Option (List Char) × List Char)) :
    ∀ e : Element,
      collectTagE propertyTag (mergeProps uv e) = (collectTagE propertyTag e).map (mergeProps uv)
  | .mk t a x tl cs => by
    have ihl := collectTagL_merge uv cs
    by_cases ht : t = propertyTag
    · cases hk : dictGet uv (dictGet a ovfKeyAttr) with
      | some v =>
        cases hl : findChildTag labelTag cs with
        | some lb =>
          simp only [mergeProps, if_pos ht, hk, hl]
          simp only [collectTagE, if_pos ht]
          rw [collectTagL_setFirst, ihl]
          simp [mergeProps, if_pos ht, hk, hl]
        | none =>
          simp only [mergeProps, if_pos ht, hk, hl]
          simp only [collectTagE, if_pos ht]
          rw [ihl]
          simp [mergeProps, if_pos ht, hk, hl]
      | none =>
        simp only [mergeProps, if_pos ht, hk]
        simp only [collectTagE, if_pos ht]
        rw [ihl]
        simp [mergeProps, if_pos ht, hk]
    · simp only [mergeProps, if_neg ht]
      simp only [collectTagE, if_neg ht]
      rw [ihl]
      simp [mergeProps, if_neg ht]
theorem collectTagL_merge (uv : List (Option (List Char) × List Char)) :
    ∀ l : ElemList,
      collectTagL propertyTag (mergePropsL uv l) = (collectTagL propertyTag l).map (mergeProps uv)
  | .nil => by simp [mergePropsL, collectTagL]
  | .cons e es => by
    simp [mergePropsL, collectTagL, collectTagE_merge uv e, collectTagL_merge uv es]
end

theorem firstLabelText_merge (uv : List (Option (List Char) × List Char)) (e : Element)
    (ht : e.tag = propertyTag) :
    match dictGet uv (dictGet e.attr ovfKeyAttr), findChildTag labelTag e.childs with
    | some v, some _ => firstLabelText (mergeProps uv e) = some (some v)
    | some _, none => firstLabelText (mergeProps uv e) = firstLabelText e
    | none, _ => firstLabelText (mergeProps uv e) = firstLabelText e := by
  cases e with
  | mk t a x tl cs =>
    simp only [Element.tag] at ht
    simp only [Element.attr, Element.childs]
    cases hk : dictGet uv (dictGet a ovfKeyAttr) with
    | some v =>
      cases hl : findChildTag labelTag cs with
      | some lb =>
        simp only [mergeProps, if_pos ht, hk, hl]
        simp only [firstLabelText, Element.childs]
        rw [findChildTag_set, findChildTag_mergePropsL, hl]
        simp [Element.text]
      | none =>
        simp only [mergeProps, if_pos ht, hk, hl]
        simp only [firstLabelText, Element.childs]
        rw [findChildTag_mergePropsL, hl]
        simp
    | none =>
      simp only [mergeProps, if_pos ht, hk]
      simp only [firstLabelText, Element.childs]
      rw [findChildTag_mergePropsL]
      cases hl : findChildTag labelTag cs with
      | some lb => simp [(mergeProps_fields uv lb).2.2.1]
      | none => simp

/-- C1.  Value merge: the Property elements of the merged document are
    exactly the mergeProps-images of the original ones, in document order;
    a Property element whose literal ovf:key attribute value is a key of
    the UserValueMap and which has a Label child gets that child's text set
    to the mapped value, and any Property element failing either condition
    keeps its attribute set, its own text, its tag and its Label-child text
    unchanged (its descendants are still visited, as findall(".//") does). -/
theorem claim_C1 (uv : List (Option (List Char) × List Char)) (xml_root : Element) :
    collectProps (update_ovf_with_user_values xml_root uv) = (collectProps xml_root).map (mergeProps uv)
    ∧ ∀ p : Element, p.tag = propertyTag →
        (mergeProps uv p).attr = p.attr ∧ (mergeProps uv p).text = p.text
        ∧ (mergeProps uv p).tag = p.tag
        ∧ (match dictGet uv (dictGet p.attr ovfKeyAttr), findChildTag labelTag p.childs with
           | some v, some _ => firstLabelText (mergeProps uv p) = some (some v)
           | some _, none => firstLabelText (mergeProps uv p) = firstLabelText p
           | none, _ => firstLabelText (mergeProps uv p) = firstLabelText p) := by
  constructor
  · cases xml_root with
    | mk t a x tl cs =>
      simp only [update_ovf_with_user_values, collectProps, Element.childs]
      exact collectTagL_merge uv cs
  · intro p hp
    exact ⟨(mergeProps_fields uv p).2.1, (mergeProps_fields uv p).2.2.1,
      (mergeProps_fields uv p).1, firstLabelText_merge uv p hp⟩

/-- C1 witness: merging the Acme value for key org rewrites the Label text
    of the matching property of docProps. -/
theorem claim_C1_witness :
    collectProps (update_ovf_with_user_values docProps mergeUv) =
      (collectProps docProps).map (mergeProps mergeUv)
    ∧ firstLabelText (mergeProps mergeUv propOrg) = some (some (("Acme").data)) := by
  have h := claim_C1 mergeUv docProps
  refine ⟨h.1, ?_⟩
  have h2 := (h.2 propOrg rfl).2.2.2
  simpa using h2

/-- C5 counterexample: a run over a destination tree holding no descriptor
    file fails, but with the TypeError of ET.parse(None), not with the
    claimed not-found error kind: find_file_in_subdirectories returns None
    and main never maps that to FileNotFoundError. -/
theorem claim_C5_counterexample :
    ovagen.main cexEnvC5 = Except.error (PyErr.typeError noneTypeMsg)
    ∧ isNotFoundErr (ovagen.main cexEnvC5) = false := by
  constructor
  · rfl
  · rfl

/-- C5 (amended).  Error kinds on missing inputs: the run fails with the
    not-found kind (Python FileNotFoundError) exactly in the no-archive
    case; an extraction failure fails with the extraction kind (Python
    RuntimeError) wrapping the underlying cause; a missing descriptor or a
    missing manifest also aborts the run, but with the TypeError raised by
    handing the failed search result None to ET.parse respectively open,
    not with the not-found kind. -/
theorem claim_C5 :
    (∀ env : MainEnv, env.srcListing.find? (fun f => ((".ova").data).isSuffixOf f) = none →
      ovagen.main env = .error (.fileNotFound (("No OVA file found in the source directory.").data)))
    ∧ (∀ (env : MainEnv) (f e : List Char),
        env.srcListing.find? (fun f2 => ((".ova").data).isSuffixOf f2) = some f →
        env.tarResult = .error e →
        ovagen.main env = .error (.runtimeError ((("Failed to extract OVA archive: ").data) ++ e)))
    ∧ (∀ env : MainEnv, extract_ova env.srcListing env.tarResult = .ok () →
        find_file_in_subdirectories env.dstWalk (("ovf").data) = none →
        ovagen.main env = .error (.typeError noneTypeMsg))
    ∧ ∀ (env : MainEnv) (pth : List Char) (xmlRoot sec : Element)
        (pj : List (List (List Char × List Char)))
        (trip : List (List (List Char × List Char)) × List (Option (List Char) × List Char) × List (List Char)),
        extract_ova env.srcListing env.tarResult = .ok () →
        find_file_in_subdirectories env.dstWalk (("ovf").data) = some pth →
        env.parsed = .ok xmlRoot →
        find_product_section ovfNS (mainRoot1 env xmlRoot) = some sec →
        properties_to_json ovfNS sec = some pj →
        prompt_user_for_values pj env.promptInputs = some trip →
        find_file_in_subdirectories env.dstWalk (("mf").data) = none →
        ovagen.main env = .error (.typeError noneTypeMsg) := by
  refine ⟨?_, ?_, ?_, ?_⟩
  · intro env hsrc
    simp [ovagen.main, extract_ova, hsrc]
  · intro env f e hsrc htar
    simp [ovagen.main, extract_ova, hsrc, htar]
  · intro env hext hovf
    simp [ovagen.main, hext, hovf, etParse]
  · intro env pth xmlRoot sec pj trip hext hovf hparse hps hjson hprompt hmf
    obtain ⟨a1, a2, a3⟩ := trip
    simp [ovagen.main, hext, hovf, etParse, hparse, hps, hjson, hprompt, hmf]

theorem isPrefixOf_self_append (l y : List Char) : l.isPrefixOf (l ++ y) = true := by
  simp

theorem hasSub_append_right (sep y : List Char) (h : hasSub sep y = true) :
    ∀ x : List Char, hasSub sep (x ++ y) = true
  | [] => h
  | c :: x' => by
    have ih := hasSub_append_right sep y h x'
    simp [hasSub, ih]

theorem hasSub_self_append (c0 : Char) (sep y : List Char) :
    hasSub (c0 :: sep) ((c0 :: sep) ++ y) = true := by
  simp [hasSub, List.isPrefixOf_cons₂, isPrefixOf_self_append]

theorem isPrefixOf_append_singleton (c : Char) :
    ∀ (sep z : List Char), c ∉ sep → sep.isPrefixOf (z ++ [c]) = sep.isPrefixOf z
  | [], z, _ => by simp
  | s0 :: rest, [], hc => by
    have hs : s0 ≠ c := fun h => hc (h ▸ List.mem_cons_self s0 rest)
    cases rest <;> simp [List.isPrefixOf_cons₂, hs]
  | s0 :: rest, z0 :: z', hc => by
    have hcr : c ∉ rest := fun h => hc (List.mem_cons_of_mem _ h)
    simp [List.isPrefixOf_cons₂, isPrefixOf_append_singleton c rest z' hcr]

theorem hasSub_append_singleton (c s0 : Char) (sep : List Char) (hc : c ∉ s0 :: sep) :
    ∀ z : List Char, hasSub (s0 :: sep) (z ++ [c]) = hasSub (s0 :: sep) z
  | [] => by
    have h1 := isPrefixOf_append_singleton c (s0 :: sep) [] hc
    simp only [List.nil_append] at h1
    simp [hasSub, h1]
  | z0 :: z' => by
    have h1 := isPrefixOf_append_singleton c (s0 :: sep) (z0 :: z') hc
    simp only [List.cons_append] at h1
    simp [hasSub, h1, hasSub_append_singleton c s0 sep hc z']

theorem hasSub_cons_ne (a b c : Char) (s : List Char) (h : a ≠ c) :
    hasSub [a, b] (c :: s) = hasSub [a, b] s := by
  simp [hasSub, List.isPrefixOf_cons₂, h]

theorem hasSub_eqSpace_sha1Open_append (z : List Char) :
    hasSub eqSpaceChars (sha1OpenChars ++ z) = hasSub eqSpaceChars z := by
  simp only [sha1OpenChars, eqSpaceChars, List.cons_append, List.nil_append]
  rw [hasSub_cons_ne '=' ' ' 'S' _ (by decide), hasSub_cons_ne '=' ' ' 'H' _ (by decide),
    hasSub_cons_ne '=' ' ' 'A' _ (by decide), hasSub_cons_ne '=' ' ' '1' _ (by decide),
    hasSub_cons_ne '=' ' ' '(' _ (by decide)]

theorem pySplitGo_skip (c0 : Char) (sep : List Char) :
    ∀ (x acc : List Char) (fuel : Nat) (rest : List Char),
      (∀ x1 x2, x = x1 ++ x2 → x2 ≠ [] → ((c0 :: sep).isPrefixOf (x2 ++ rest)) = false) →
      pySplitGo c0 sep (x.length + fuel) acc (x ++ rest) = pySplitGo c0 sep fuel (x.reverse ++ acc) rest
  | [], acc, fuel, rest => by
    intro h
    simp
  | c :: x', acc, fuel, rest => by
    intro h
    have hpre : ((c0 :: sep).isPrefixOf (c :: (x' ++ rest))) = false := by
      have := h [] (c :: x') rfl (by simp)
      simpa using this
    have hstep : (c :: x').length + fuel = (x'.length + fuel) + 1 := by
      simp
      omega
    rw [hstep]
    show pySplitGo c0 sep ((x'.length + fuel) + 1) acc (c :: (x' ++ rest)) = _
    rw [pySplitGo]
    rw [if_neg (by simp [hpre])]
    rw [pySplitGo_skip c0 sep x' (c :: acc) fuel rest
      (fun x1 x2 hx hne => h (c :: x1) x2 (by rw [hx, List.cons_append]) hne)]
    simp

theorem pySplit_first (p hx : List Char) (hp1 : hasSub eqSpaceChars p = false) :
    (pySplit eqSpaceChars ((sha1OpenChars ++ p ++ [')']) ++ '=' :: ' ' :: hx)).headD [] =
      sha1OpenChars ++ p ++ [')'] := by
  have t1 : hasSub eqSpaceChars (p ++ [')']) = false := by
    have h := hasSub_append_singleton ')' '=' [' '] (by decide) p
    simp only [eqSpaceChars]
    rw [h]
    simpa [eqSpaceChars] using hp1
  have hNX : hasSub eqSpaceChars (sha1OpenChars ++ (p ++ [')'])) = false := by
    rw [hasSub_eqSpace_sha1Open_append]
    exact t1
  have hskip : ∀ x1 x2, sha1OpenChars ++ p ++ [')'] = x1 ++ x2 → x2 ≠ [] →
      (('=' :: [' ']).isPrefixOf (x2 ++ '=' :: ' ' :: hx)) = false := by
    intro x1 x2 hX hne2
    cases x2 with
    | nil => exact absurd rfl hne2
    | cons c1 x2' =>
      cases x2' with
      | nil => simp [List.isPrefixOf_cons₂]
      | cons c2 x2'' =>
        by_cases h1 : c1 = '='
        · by_cases h2 : c2 = ' '
          · exfalso
            subst h1
            subst h2
            have hocc : hasSub eqSpaceChars ('=' :: ' ' :: x2'') = true := by
              simp [hasSub, eqSpaceChars, List.isPrefixOf_cons₂]
            have hocc2 : hasSub eqSpaceChars (x1 ++ '=' :: ' ' :: x2'') = true :=
              hasSub_append_right _ _ hocc x1
            rw [show sha1OpenChars ++ p ++ [')'] = sha1OpenChars ++ (p ++ [')']) by simp] at hX
            rw [hX, hocc2] at hNX
            simp at hNX
          · have hb2 : (' ' == c2) = false := by
              simp [beq_eq_false_iff_ne]
              exact fun hh => h2 hh.symm
            simp [List.cons_append, List.isPrefixOf_cons₂, hb2]
        · have hb1 : ('=' == c1) = false := by
            simp [beq_eq_false_iff_ne]
            exact fun hh => h1 hh.symm
          simp [List.cons_append, List.isPrefixOf_cons₂, hb1]
  have hlen : ((sha1OpenChars ++ p ++ [')']) ++ '=' :: ' ' :: hx).length =
      (sha1OpenChars ++ p ++ [')']).length + (hx.length + 2) := by
    simp
    omega
  show (pySplitGo '=' [' '] _ [] _).headD [] = _
  rw [hlen]
  rw [pySplitGo_skip '=' [' '] (sha1OpenChars ++ p ++ [')']) [] (hx.length + 2) ('=' :: ' ' :: hx)
    (by
      intro x1 x2 hX hne2
      exact hskip x1 x2 (by rw [hX]) hne2)]
  show (pySplitGo '=' [' '] (hx.length + 1 + 1) _ ('=' :: ' ' :: hx)).headD [] = _
  rw [pySplitGo]
  rw [if_pos (by simp [List.isPrefixOf_cons₂])]
  simp

theorem pyReplaceGo_no_occ (c0 : Char) (sep new : List Char) :
    ∀ (t : List Char) (fuel : Nat), t.length ≤ fuel → hasSub (c0 :: sep) t = false →
      pyReplaceGo c0 sep new fuel t = t
  | [], fuel => by
    intro hf hocc
    cases fuel <;> simp [pyReplaceGo]
  | c :: t', fuel => by
    intro hf hocc
    cases fuel with
    | zero => simp at hf
    | succ f =>
      simp only [hasSub, Bool.or_eq_false_iff] at hocc
      rw [pyReplaceGo]
      rw [if_neg (by simp [hocc.1])]
      rw [pyReplaceGo_no_occ c0 sep new t' f (by simpa using Nat.le_of_succ_le_succ hf) hocc.2]

theorem pyReplace_sha1Open (q : List Char) (hq : hasSub sha1OpenChars q = false) :
    pyReplace sha1OpenChars [] (sha1OpenChars ++ q) = q := by
  have hlen : (sha1OpenChars ++ q).length = (q.length + 4) + 1 := by
    simp [sha1OpenChars]
  show pyReplaceGo 'S' ['H', 'A', '1', '('] [] (sha1OpenChars ++ q).length (sha1OpenChars ++ q) = q
  rw [hlen]
  show pyReplaceGo 'S' ['H', 'A', '1', '('] [] ((q.length + 4) + 1)
    ('S' :: ('H' :: 'A' :: '1' :: '(' :: q)) = q
  rw [pyReplaceGo]
  rw [if_pos (by simp [List.isPrefixOf_cons₂])]
  show pyReplaceGo 'S' ['H', 'A', '1', '('] [] (q.length + 4)
    (('H' :: 'A' :: '1' :: '(' :: q).drop 4) = q
  have hdrop : ('H' :: 'A' :: '1' :: '(' :: q).drop 4 = q := rfl
  rw [hdrop]
  exact pyReplaceGo_no_occ 'S' ['H', 'A', '1', '('] [] q (q.length + 4) (by omega)
    (by simpa [sha1OpenChars] using hq)

theorem pyReplaceGo_paren :
    ∀ (p : List Char) (fuel : Nat), p.length + 1 ≤ fuel → ')' ∉ p →
      pyReplaceGo ')' [] [] fuel (p ++ [')']) = p
  | [], fuel => by
    intro hf hp
    cases fuel with
    | zero => simp at hf
    | succ f =>
      show pyReplaceGo ')' [] [] (f + 1) [')'] = []
      rw [pyReplaceGo]
      rw [if_pos (by simp [List.isPrefixOf_cons₂])]
      cases f <;> simp [pyReplaceGo]
  | c :: p', fuel => by
    intro hf hp
    cases fuel with
    | zero => simp at hf
    | succ f =>
      have hc : ')' ≠ c := fun h => hp (h ▸ List.mem_cons_self c p')
      show pyReplaceGo ')' [] [] (f + 1) (c :: (p' ++ [')'])) = c :: p'
      rw [pyReplaceGo]
      rw [if_neg (by simp [List.isPrefixOf_cons₂, hc])]
      rw [pyReplaceGo_paren p' f (by simp at hf; omega) (fun h => hp (List.mem_cons_of_mem _ h))]

theorem pyReplace_paren (p : List Char) (hp : ')' ∉ p) :
    pyReplace [')'] [] (p ++ [')']) = p := by
  show pyReplaceGo ')' [] [] ((p ++ [')']).length) (p ++ [')']) = p
  exact pyReplaceGo_paren p (p ++ [')']).length (by simp) hp

theorem pyStrip_line (a : Char) (w hx : List Char) (ha : isPySpace a = false) (hne : hx ≠ [])
    (hsp : ∀ c ∈ hx, isPySpace c = false) :
    pyStrip ((a :: w) ++ hx ++ ['\n']) = (a :: w) ++ hx := by
  rcases (List.eq_nil_or_concat hx).resolve_left hne with ⟨ys, c, rfl⟩
  have hc : isPySpace c = false := hsp c (by simp [List.concat_eq_append])
  simp only [List.concat_eq_append]
  unfold pyStrip
  have h1 : List.dropWhile isPySpace ((a :: w) ++ (ys ++ [c]) ++ ['\n']) =
      (a :: w) ++ (ys ++ [c]) ++ ['\n'] := by
    simp only [List.cons_append, List.dropWhile_cons, ha]
    simp
  rw [h1]
  have h2 : ((a :: w) ++ (ys ++ [c]) ++ ['\n']).reverse =
      '\n' :: (c :: (ys.reverse ++ (a :: w).reverse)) := by
    simp
  rw [h2]
  have h3 : List.dropWhile isPySpace ('\n' :: (c :: (ys.reverse ++ (a :: w).reverse))) =
      c :: (ys.reverse ++ (a :: w).reverse) := by
    rw [List.dropWhile_cons]
    simp only [show isPySpace '\n' = true from rfl]
    rw [List.dropWhile_cons]
    simp [hc]
  rw [h3]
  simp

/-- The digest lookup built by the walk loop is unaffected by entries for
    other paths. -/
theorem sha1_values_foldl_not_mem (p : List Char) :
    ∀ (fs : List (List Char × List Nat)) (acc : List (List Char × List Char)),
      p ∉ fs.map Prod.fst →
      dictGet (fs.foldl (fun d f => dictInsert f.1 (sha1Hex f.2) d) acc) p = dictGet acc p
  | [], acc => by
    intro hp
    simp
  | f :: fs', acc => by
    intro hp
    simp only [List.map_cons, List.mem_cons, not_or] at hp
    simp only [List.foldl_cons]
    rw [sha1_values_foldl_not_mem p fs' _ hp.2]
    exact dictGet_insert_ne f.1 p (sha1Hex f.2) hp.1 acc

theorem dictGet_sha1_values (files : List (List Char × List Nat)) (p : List Char) (b : List Nat)
    (hmem : (p, b) ∈ files) (hnd : (files.map Prod.fst).Nodup) :
    dictGet (sha1_values files) p = some (sha1Hex b) := by
  obtain ⟨s, t, rfl⟩ := List.append_of_mem hmem
  have hpt : p ∉ t.map Prod.fst := by
    have hsub : List.Sublist (((p, b) :: t).map Prod.fst) ((s ++ (p, b) :: t).map Prod.fst) := by
      rw [List.map_append]
      exact List.sublist_append_right _ _
    have := List.Nodup.sublist hsub hnd
    simp only [List.map_cons] at this
    exact (List.nodup_cons.mp this).1
  unfold sha1_values
  rw [List.foldl_append]
  simp only [List.foldl_cons]
  rw [sha1_values_foldl_not_mem p t _ hpt]
  exact dictGet_insert_self _ _ _

theorem sha1_length (msg : List Nat) : (sha1 msg).length = 20 := by
  simp only [sha1]
  generalize (chunksGo (sha1Pad msg).length (sha1Pad msg)).foldl sha1Compress
    (1732584193, 4023233417, 2562383102, 271733878, 3285377520) = st
  obtain ⟨h0, h1, h2, h3, h4⟩ := st
  simp [wordBytes]

theorem flatMap_byteHex_length : ∀ l : List Nat, (l.flatMap byteHex).length = 2 * l.length
  | [] => rfl
  | n :: r => by
    simp only [List.flatMap_cons, List.length_append, flatMap_byteHex_length r, byteHex]
    simp
    omega

theorem sha1Hex_length (msg : List Nat) : (sha1Hex msg).length = 40 := by
  simp only [sha1Hex, flatMap_byteHex_length, sha1_length]

theorem hexDigit_mem (k : Nat) : hexDigitsChars.getD (k % 16) '0' ∈ hexDigitsChars := by
  have hk : k % 16 < 16 := Nat.mod_lt _ (by norm_num)
  have h16 : hexDigitsChars.length = 16 := by decide
  have hlen : k % 16 < hexDigitsChars.length := by
    rw [h16]
    exact hk
  rw [List.getD_eq_getElem hexDigitsChars '0' hlen]
  exact List.getElem_mem hlen

theorem sha1Hex_mem (msg : List Nat) (c : Char) (hc : c ∈ sha1Hex msg) : c ∈ hexDigitsChars := by
  simp only [sha1Hex, List.mem_flatMap] at hc
  obtain ⟨n, _, hcn⟩ := hc
  simp only [byteHex, List.mem_cons, List.mem_singleton] at hcn
  rcases hcn with h | h | h
  · exact h ▸ hexDigit_mem (n / 16)
  · exact h ▸ hexDigit_mem n
  · simp at h

/-- The rewriting branch of processLine on a clean, well-formed digest line:
    the parsed name is the path itself, and the line is rebuilt with the
    looked-up digest. -/
theorem processLine_good (sv : List (List Char × List Char)) (p hx d : List Char)
    (hp1 : hasSub eqSpaceChars p = false) (hp2 : hasSub sha1OpenChars p = false) (hp3 : ')' ∉ p)
    (hne : hx ≠ []) (hsp : ∀ c ∈ hx, isPySpace c = false)
    (hget : dictGet sv p = some d) :
    processLine sv (mkSha1Line p hx) = mkSha1Line p d := by
  have hline : mkSha1Line p hx = ('S' :: (['H', 'A', '1', '('] ++ p ++ [')', '=', ' '])) ++ hx ++ ['\n'] := by
    simp [mkSha1Line, sha1OpenChars, eqSpaceChars]
  have hstrip : pyStrip (mkSha1Line p hx) = (sha1OpenChars ++ p ++ [')']) ++ '=' :: ' ' :: hx := by
    rw [hline, pyStrip_line 'S' _ hx (by decide) hne hsp]
    simp [sha1OpenChars]
  have hpre : sha1OpenChars.isPrefixOf (pyStrip (mkSha1Line p hx)) = true := by
    rw [hstrip]
    rw [show (sha1OpenChars ++ p ++ [')']) ++ '=' :: ' ' :: hx =
      sha1OpenChars ++ (p ++ [')'] ++ '=' :: ' ' :: hx) by simp]
    exact isPrefixOf_self_append _ _
  have hq : hasSub sha1OpenChars (p ++ [')']) = false := by
    have h := hasSub_append_singleton ')' 'S' ['H', 'A', '1', '('] (by decide) p
    simp only [sha1OpenChars]
    rw [h]
    simpa [sha1OpenChars] using hp2
  have hname : extractName (mkSha1Line p hx) = p := by
    simp only [extractName, hstrip]
    rw [pySplit_first p hx hp1]
    rw [show sha1OpenChars ++ p ++ [')'] = sha1OpenChars ++ (p ++ [')']) by simp]
    rw [pyReplace_sha1Open (p ++ [')']) hq]
    exact pyReplace_paren p hp3
  simp only [processLine, hpre, hname, hget]
  simp

set_option maxRecDepth 100000 in
/-- C2 counterexample: the file a)b has a computed digest and the manifest
    line is of the digest-line form for exactly that path, yet the line is
    written back unchanged, because the paren-deleting parse extracts the
    name ab: the claim's universal rewriting fails on paths containing a
    closing parenthesis. -/
theorem claim_C2_counterexample :
    dictGet (sha1_values cexFiles2) cexPath2 = some (sha1Hex cexBytes2)
    ∧ update_sha1_values cexFiles2 [cexLine2] = [cexLine2]
    ∧ cexLine2 ≠ mkSha1Line cexPath2 (sha1Hex cexBytes2) := by
  refine ⟨dictGet_sha1_values cexFiles2 cexPath2 cexBytes2 (by decide) (by decide), ?_, ?_⟩
  · decide
  · decide

/-- C2 (amended).  Manifest reconciliation restricted to parseable paths:
    for every file (p, b) of the walk (paths pairwise distinct), the digest
    dictionary maps p to the 40-character lowercase-hex SHA-1 of b; the
    manifest is rewritten line by line in order (no line added, removed or
    reordered); a digest line for p whose path contains no closing
    parenthesis, no SHA1( substring and no equals-space substring, and whose
    digest field is non-empty whitespace-free text, is rewritten to carry
    exactly the computed digest; a line not starting (after stripping) with
    SHA1(, or whose parsed path has no computed digest, is written back
    byte-identical. -/
theorem claim_C2 (files : List (List Char × List Nat)) (mf_lines : List (List Char))
    (p hx : List Char) (b : List Nat)
    (hmem : (p, b) ∈ files) (hnd : (files.map Prod.fst).Nodup)
    (hp1 : hasSub eqSpaceChars p = false) (hp2 : hasSub sha1OpenChars p = false) (hp3 : ')' ∉ p)
    (hne : hx ≠ []) (hsp : ∀ c ∈ hx, isPySpace c = false) :
    dictGet (sha1_values files) p = some (sha1Hex b)
    ∧ (sha1Hex b).length = 40
    ∧ (∀ c ∈ sha1Hex b, c ∈ hexDigitsChars)
    ∧ update_sha1_values files mf_lines = mf_lines.map (processLine (sha1_values files))
    ∧ processLine (sha1_values files) (mkSha1Line p hx) = mkSha1Line p (sha1Hex b)
    ∧ (∀ line, sha1OpenChars.isPrefixOf (pyStrip line) = false →
        processLine (sha1_values files) line = line)
    ∧ (∀ line, dictGet (sha1_values files) (extractName line) = none →
        processLine (sha1_values files) line = line) := by
  have hget := dictGet_sha1_values files p b hmem hnd
  refine ⟨hget, sha1Hex_length b, sha1Hex_mem b, rfl,
    processLine_good _ p hx _ hp1 hp2 hp3 hne hsp hget, ?_, ?_⟩
  · intro line h
    simp [processLine, h]
  · intro line h
    by_cases hb : sha1OpenChars.isPrefixOf (pyStrip line) = true
    · simp [processLine, hb, h]
    · rw [Bool.not_eq_true] at hb
      simp [processLine, hb]

/-- C2 witness: a clean manifest line for disk1.vmdk is rewritten with the
    SHA-1 digest of the file's bytes. -/
theorem claim_C2_witness :
    processLine (sha1_values witFiles2) (mkSha1Line (("disk1.vmdk").data) (("deadbeef").data)) =
      mkSha1Line (("disk1.vmdk").data) (sha1Hex [104, 105]) :=
  (claim_C2 witFiles2 [] (("disk1.vmdk").data) (("deadbeef").data) [104, 105]
    (by decide) (by decide) (by decide) (by decide) (by decide) (by decide) (by decide)).2.2.2.2.1

/-- C5 witness: the four branches at concrete runs: a missing archive, a
    failing extraction, a missing descriptor, and a missing manifest. -/
theorem claim_C5_witness :
    ovagen.main envA5 = Except.error (PyErr.fileNotFound (("No OVA file found in the source directory.").data))
    ∧ ovagen.main envB5 = Except.error (PyErr.runtimeError ((("Failed to extract OVA archive: ").data) ++ ("boom").data))
    ∧ ovagen.main cexEnvC5 = Except.error (PyErr.typeError noneTypeMsg)
    ∧ ovagen.main envD5 = Except.error (PyErr.typeError noneTypeMsg) :=
  ⟨claim_C5.1 envA5 rfl,
   claim_C5.2.1 envB5 (("box.ova").data) (("boom").data) rfl rfl,
   claim_C5.2.2.1 cexEnvC5 rfl rfl,
   claim_C5.2.2.2 envD5 (("dst/appliance.ovf").data) docC5
     (Element.mk (qualTag ovfNS (("ProductSection").data)) [] none none .nil) [] ([], [], [])
     rfl rfl rfl rfl rfl rfl rfl⟩
